import Mathlib

/-!
Verification of the Fl_Terminal terminal-emulation core (FLTK).

The development shallowly embeds the protected helper classes declared in
`src/fltk/hdr/Fl_Terminal.h`: `CharStyle`, `Cursor`, `Utf8Char`, `RingBuffer`,
`Selection`, `EscapeSeq` and `PartialUtf8Buf`, together with a byte-at-a-time
terminal engine.  Functions whose bodies appear inline in the header are
translated literally; functions that the header only declares (their bodies
live in an implementation file not present here) are modelled from the
specification and are marked `Modelled from the spec:` in their doc comments.

Machine integers are embedded as `Int`/`Nat`; the C `%` operator on `int`
(truncated remainder) is `Int.tmod`, while the mathematical modulus is
`Int.emod` (Lean's `%` on `Int`).
-/

namespace FlTerminal

/-- Attribute bits (`Fl_Terminal::Attrib`): all attributes off. -/
def NORMAL : Nat := 0x00

/-- Attribute bit `BOLD`. -/
def BOLD : Nat := 0x01

/-- Attribute bit `DIM`. -/
def DIM : Nat := 0x02

/-- Attribute bit `ITALIC`. -/
def ITALIC : Nat := 0x04

/-- Attribute bit `UNDERLINE`. -/
def UNDERLINE : Nat := 0x08

/-- Attribute bit `INVERSE`. -/
def INVERSE : Nat := 0x20

/-- Attribute bit `STRIKEOUT`. -/
def STRIKEOUT : Nat := 0x80

/-- Char flag (`Fl_Terminal::CharFlags`): fg color is an XTERM palette color. -/
def FG_XTERM : Nat := 0x01

/-- Char flag: bg color is an XTERM palette color. -/
def BG_XTERM : Nat := 0x02

/-- Char flag mask for the two xterm-color flags (`COLORMASK`). -/
def COLORMASK : Nat := FG_XTERM ||| BG_XTERM

/-- Modelled from the spec: `fl_utf8len` is an FLTK library function whose
source is not part of this repository.  Per the UTF-8 lead-byte table in the
`PartialUtf8Buf` header comment: `0xxxxxxx` is length 1, `110xxxxx` length 2,
`1110xxxx` length 3, `11110xxx` length 4, `111110xx` length 5, `1111110x`
length 6, and a continuation byte (`10xxxxxx`) is not a lead byte (-1). -/
def fl_utf8len (c : Nat) : Int :=
  if c &&& 0x80 = 0 then 1
  else if c &&& 0xe0 = 0xc0 then 2
  else if c &&& 0xf0 = 0xe0 then 3
  else if c &&& 0xf8 = 0xf0 then 4
  else if c &&& 0xfc = 0xf8 then 5
  else if c &&& 0xfe = 0xfc then 6
  else -1

/-- `Fl_Terminal::CharStyle`: the terminal's current character style.
The font-metric fields (`fontface_`, `fontsize_`, `fontheight_`,
`fontdescent_`, `charwidth_`) are drawing-only state never read by the
operations verified here and are omitted. -/
structure CharStyle where
  attrib : Nat
  charflags : Nat
  fgcolor : Nat
  bgcolor : Nat
  defaultfgcolor : Nat
  defaultbgcolor : Nat
deriving DecidableEq

/-- `CharStyle::set_charflag(uchar val)  { charflags_ |= val; }` -/
def CharStyle.set_charflag (s : CharStyle) (v : Nat) : CharStyle :=
  { s with charflags := s.charflags ||| v }

/-- `CharStyle::clr_charflag(uchar val)  { charflags_ &= ~val; }`
(8-bit complement, the fields being `uchar`). -/
def CharStyle.clr_charflag (s : CharStyle) (v : Nat) : CharStyle :=
  { s with charflags := s.charflags &&& (0xff ^^^ v) }

/-- `CharStyle::attrib(uchar val)  { attrib_ = val; }` -/
def CharStyle.attrib_set (s : CharStyle) (v : Nat) : CharStyle :=
  { s with attrib := v }

/-- `CharStyle::fgcolor(Fl_Color val)  { fgcolor_ = val; clr_charflag(FG_XTERM); }` -/
def CharStyle.fgcolor_set (s : CharStyle) (v : Nat) : CharStyle :=
  (CharStyle.clr_charflag { s with fgcolor := v } FG_XTERM)

/-- `CharStyle::bgcolor(Fl_Color val)  { bgcolor_ = val; clr_charflag(BG_XTERM); }` -/
def CharStyle.bgcolor_set (s : CharStyle) (v : Nat) : CharStyle :=
  (CharStyle.clr_charflag { s with bgcolor := v } BG_XTERM)

/-- `CharStyle::fgcolor_xterm(Fl_Color val)  { fgcolor_ = val; set_charflag(FG_XTERM); }` -/
def CharStyle.fgcolor_xterm (s : CharStyle) (v : Nat) : CharStyle :=
  (CharStyle.set_charflag { s with fgcolor := v } FG_XTERM)

/-- `CharStyle::bgcolor_xterm(Fl_Color val)  { bgcolor_ = val; set_charflag(BG_XTERM); }` -/
def CharStyle.bgcolor_xterm (s : CharStyle) (v : Nat) : CharStyle :=
  (CharStyle.set_charflag { s with bgcolor := v } BG_XTERM)

/-- Modelled from the spec: `CharStyle::colorbits_only` is only declared in the
header; per the `COLORMASK` enum comment it keeps just the two xterm-color
flags of its argument. -/
def CharStyle.colorbits_only (_s : CharStyle) (inflags : Nat) : Nat :=
  inflags &&& COLORMASK

/-- `CharStyle::sgr_reset(void)` (handler of `ESC[0m`), translated from the
inline body in the header. -/
def CharStyle.sgr_reset (s : CharStyle) : CharStyle :=
  let s1 := s.attrib_set NORMAL
  let s2 :=
    if s1.charflags &&& FG_XTERM ≠ 0 then s1.fgcolor_xterm s1.defaultfgcolor
    else s1.fgcolor_set s1.defaultfgcolor
  let s3 :=
    if s2.charflags &&& BG_XTERM ≠ 0 then s2.bgcolor_xterm s2.defaultbgcolor
    else s2.bgcolor_set s2.defaultbgcolor
  s3

/-- `CharStyle::onoff(bool flag, Attrib a)`: set or clear attribute bits. -/
def CharStyle.onoff (s : CharStyle) (flag : Bool) (a : Nat) : Nat :=
  if flag then s.attrib ||| a else s.attrib &&& (0xff ^^^ a)

/-- `CharStyle::sgr_bold` (e.g. `ESC[1m`). -/
def CharStyle.sgr_bold (s : CharStyle) (val : Bool) : CharStyle :=
  { s with attrib := s.onoff val BOLD }

/-- `CharStyle::sgr_dim` (e.g. `ESC[2m`). -/
def CharStyle.sgr_dim (s : CharStyle) (val : Bool) : CharStyle :=
  { s with attrib := s.onoff val DIM }

/-- `CharStyle::sgr_italic` (e.g. `ESC[3m`). -/
def CharStyle.sgr_italic (s : CharStyle) (val : Bool) : CharStyle :=
  { s with attrib := s.onoff val ITALIC }

/-- `CharStyle::sgr_underline` (e.g. `ESC[4m`). -/
def CharStyle.sgr_underline (s : CharStyle) (val : Bool) : CharStyle :=
  { s with attrib := s.onoff val UNDERLINE }

/-- `CharStyle::sgr_inverse` (e.g. `ESC[7m`). -/
def CharStyle.sgr_inverse (s : CharStyle) (val : Bool) : CharStyle :=
  { s with attrib := s.onoff val INVERSE }

/-- `CharStyle::sgr_strike` (e.g. `ESC[9m`). -/
def CharStyle.sgr_strike (s : CharStyle) (val : Bool) : CharStyle :=
  { s with attrib := s.onoff val STRIKEOUT }

/-- `Fl_Terminal::Cursor`: the terminal cursor. -/
structure Cursor where
  col : Int
  row : Int
  h : Int
  fgcolor : Nat
  bgcolor : Nat
deriving DecidableEq

/-- The `Cursor` constructor from the header. -/
def Cursor.init : Cursor :=
  { col := 0, row := 0, h := 10, fgcolor := 0xfffff000, bgcolor := 0x00d00000 }

/-- `Cursor::col(int val)  { col_ = val >= 0 ? val : 0; }` -/
def Cursor.col_set (c : Cursor) (val : Int) : Cursor :=
  { c with col := if 0 ≤ val then val else 0 }

/-- `Cursor::row(int val)  { row_ = val >= 0 ? val : 0; }` -/
def Cursor.row_set (c : Cursor) (val : Int) : Cursor :=
  { c with row := if 0 ≤ val then val else 0 }

/-- `Cursor::left()  { col_ = (col_>0) ? (col_-1) : 0; }` -/
def Cursor.left (c : Cursor) : Cursor :=
  { c with col := if 0 < c.col then c.col - 1 else 0 }

/-- `Cursor::right()  { return ++col_; }` -/
def Cursor.right (c : Cursor) : Cursor :=
  { c with col := c.col + 1 }

/-- `Cursor::up()  { row_ = (row_>0) ? (row_-1) : 0; }` -/
def Cursor.up (c : Cursor) : Cursor :=
  { c with row := if 0 < c.row then c.row - 1 else 0 }

/-- `Cursor::down()  { return ++row_; }` -/
def Cursor.down (c : Cursor) : Cursor :=
  { c with row := c.row + 1 }

/-- `Cursor::home()  { row_ = 0; col_ = 0; }` -/
def Cursor.home (c : Cursor) : Cursor :=
  { c with row := 0, col := 0 }

/-- Modelled from the spec: `Cursor::scroll(int nrows)` is only declared in the
header.  The spec states `row`, `col` are "both clamped ≥0"; scrolling moves
the cursor with the content, shifting its row by the scroll amount and
clamping at 0. -/
def Cursor.scroll (c : Cursor) (nrows : Int) : Cursor :=
  { c with row := max (c.row - nrows) 0 }

/-- The cursor operations named by the spec's cursor-clamp property. -/
inductive CursorOp where
  | row_set (v : Int)
  | col_set (v : Int)
  | left
  | right
  | up
  | down
  | home
  | scroll (n : Int)
deriving DecidableEq

/-- Apply one cursor operation. -/
def Cursor.apply (c : Cursor) : CursorOp → Cursor
  | .row_set v => c.row_set v
  | .col_set v => c.col_set v
  | .left => c.left
  | .right => c.right
  | .up => c.up
  | .down => c.down
  | .home => c.home
  | .scroll n => c.scroll n

/-- `Fl_Terminal::PartialUtf8Buf`: buffers a partial UTF-8 encoded character
between `append` calls.  The C object is a fixed `char buf_[10]` plus a length
`buflen_`; the embedding keeps the meaningful prefix as a list. -/
structure PartialUtf8Buf where
  buf : List Nat
  clen : Int
deriving DecidableEq

/-- `buflen()` -- length of the buffered partial character. -/
def PartialUtf8Buf.buflen (b : PartialUtf8Buf) : Int := b.buf.length

/-- `PartialUtf8Buf::clear()  { buflen_ = clen_ = 0; }` -/
def PartialUtf8Buf.clear (_b : PartialUtf8Buf) : PartialUtf8Buf :=
  { buf := [], clen := 0 }

/-- The `PartialUtf8Buf` constructor (calls `clear()`). -/
def PartialUtf8Buf.init : PartialUtf8Buf := { buf := [], clen := 0 }

/-- `PartialUtf8Buf::is_continuation(char c)`: `(c & 0xc0) == 0x80`. -/
def PartialUtf8Buf.is_continuation (c : Nat) : Bool :=
  c &&& 0xc0 = 0x80

/-- `PartialUtf8Buf::append(const char *p, int len)`, translated from the
inline body in the header (`sizeof(buf_)` is 10); the C loop copies exactly
`len` bytes from `p`. -/
def PartialUtf8Buf.append (b : PartialUtf8Buf) (p : List Nat) (len : Int) :
    PartialUtf8Buf × Bool :=
  if len ≤ 0 then (b, true)
  else if 10 ≤ b.buflen + len then (b.clear, false)
  else
    let b1 := if b.buflen = 0 then { b with clen := fl_utf8len (p.headD 0) } else b
    ({ b1 with buf := b1.buf ++ p.take len.toNat }, true)

/-- `PartialUtf8Buf::is_complete()`: `buflen_ && (buflen_ == clen_)`. -/
def PartialUtf8Buf.is_complete (b : PartialUtf8Buf) : Bool :=
  b.buflen ≠ 0 ∧ b.buflen = b.clen

/-- `Utf8Char::max_utf8_ = 4` (RFC 3629: UTF-8 chars are 1 to 4 octets). -/
def max_utf8 : Nat := 4

/-- `Fl_Terminal::Utf8Char`: one character cell of the grid. -/
structure Utf8Char where
  text : List Nat
  len : Nat
  attrib : Nat
  charflags : Nat
  fgcolor : Nat
  bgcolor : Nat
deriving DecidableEq

/-- Modelled from the spec: the private `Utf8Char::text_utf8_(text,len)` is only
declared in the header; per the data model ("bytes[≤4]") it stores the first
`min len max_utf8` bytes of `text` and records that length. -/
def Utf8Char.text_utf8_ (c : Utf8Char) (t : List Nat) (len : Nat) : Utf8Char :=
  { c with text := t.take (min len max_utf8), len := min len max_utf8 }

/-- Modelled from the spec: `Utf8Char::text_utf8(text,len,style)` is only
declared in the header; it stores the bytes and stamps the style's attributes,
xterm-color flags and colors onto the cell ("printable output updates cells at
the Cursor position ... using CharacterStyle"). -/
def Utf8Char.text_utf8 (c : Utf8Char) (t : List Nat) (len : Nat) (style : CharStyle) :
    Utf8Char :=
  let c1 := c.text_utf8_ t len
  { c1 with attrib := style.attrib,
            charflags := style.colorbits_only style.charflags,
            fgcolor := style.fgcolor,
            bgcolor := style.bgcolor }

/-- `Utf8Char::clear(style)  { text_utf8(" ", 1, style); charflags_ = 0; attrib_ = 0; }`
(inline in the header; a space is byte 0x20). -/
def Utf8Char.clear (c : Utf8Char) (style : CharStyle) : Utf8Char :=
  let c1 := c.text_utf8 [0x20] 1 style
  { c1 with charflags := 0, attrib := 0 }

/-- `Utf8Char::is_char(char c)`: `*text_ == c`. -/
def Utf8Char.is_char (c : Utf8Char) (ch : Nat) : Bool :=
  c.text.headD 0 = ch

/-- Modelled from the spec: the `Utf8Char` default constructor is only declared
in the header; a fresh cell is a cleared cell (single space, no attributes). -/
def Utf8Char.init : Utf8Char :=
  { text := [0x20], len := 1, attrib := 0, charflags := 0, fgcolor := 0, bgcolor := 0 }

/-- The Utf8Cell well-formedness from the spec: `byteLength` matches a valid
UTF-8 encoding length of `bytes` (a stored lead byte announcing exactly the
stored number of bytes, all following bytes being continuations). -/
def Utf8Char.validUtf8 (c : Utf8Char) : Prop :=
  c.len = c.text.length ∧ 1 ≤ c.len ∧ c.len ≤ max_utf8 ∧
  fl_utf8len (c.text.headD 0) = (c.len : Int) ∧
  ∀ b ∈ c.text.tail, PartialUtf8Buf.is_continuation b

instance (c : Utf8Char) : Decidable c.validUtf8 := by
  unfold Utf8Char.validUtf8; infer_instance

/-- `Fl_Terminal::RingBuffer`: circular row storage for history + display. -/
structure RingBuffer where
  ring_chars : List (List Utf8Char)
  ring_rows : Int
  ring_cols : Int
  nchars : Int
  hist_rows : Int
  hist_use : Int
  disp_rows : Int
  offset : Int
deriving DecidableEq

/-- `RingBuffer::ring_srow()  { return(0); }` -/
def RingBuffer.ring_srow (_r : RingBuffer) : Int := 0

/-- `RingBuffer::ring_erow()  { return(ring_rows_ - 1); }` -/
def RingBuffer.ring_erow (r : RingBuffer) : Int := r.ring_rows - 1

/-- `RingBuffer::hist_srow()  { return((offset_ + 0) % ring_rows_); }`
(C `%` on `int` is the truncated remainder, `Int.tmod`). -/
def RingBuffer.hist_srow (r : RingBuffer) : Int :=
  (r.offset + 0).tmod r.ring_rows

/-- `RingBuffer::hist_erow()  { return((offset_ + hist_rows_ - 1) % ring_rows_); }` -/
def RingBuffer.hist_erow (r : RingBuffer) : Int :=
  (r.offset + r.hist_rows - 1).tmod r.ring_rows

/-- `RingBuffer::disp_srow()  { return((offset_ + hist_rows_) % ring_rows_); }` -/
def RingBuffer.disp_srow (r : RingBuffer) : Int :=
  (r.offset + r.hist_rows).tmod r.ring_rows

/-- `RingBuffer::disp_erow()  { return((offset_ + hist_rows_ + disp_rows_ - 1) % ring_rows_); }` -/
def RingBuffer.disp_erow (r : RingBuffer) : Int :=
  (r.offset + r.hist_rows + r.disp_rows - 1).tmod r.ring_rows

/-- `RingBuffer::hist_use_srow()  { return((offset_ + hist_rows_ - hist_use_) % ring_rows_); }` -/
def RingBuffer.hist_use_srow (r : RingBuffer) : Int :=
  (r.offset + r.hist_rows - r.hist_use).tmod r.ring_rows

/-- `RingBuffer::hist_cols()  { return ring_cols_; }` -/
def RingBuffer.hist_cols (r : RingBuffer) : Int := r.ring_cols

/-- `RingBuffer::disp_cols()  { return ring_cols_; }` -/
def RingBuffer.disp_cols (r : RingBuffer) : Int := r.ring_cols

/-- The ring-state validity from the spec's data model: the ring is partitioned
into history and display (`historyRows + displayRows == ringRows`), the used
history fits its region (`0 ≤ historyUsed ≤ historyRows`), the display is
non-degenerate and the rotation offset is reduced. -/
def RingBuffer.valid (r : RingBuffer) : Prop :=
  r.hist_rows + r.disp_rows = r.ring_rows ∧ 0 ≤ r.hist_rows ∧ 0 < r.disp_rows ∧
  0 ≤ r.hist_use ∧ r.hist_use ≤ r.hist_rows ∧ 0 ≤ r.offset ∧ r.offset < r.ring_rows

instance (r : RingBuffer) : Decidable r.valid := by
  unfold RingBuffer.valid; infer_instance

/-- A blank row of `cols` cleared cells bearing `style`. -/
def blankRow (cols : Int) (style : CharStyle) : List Utf8Char :=
  List.replicate cols.toNat (Utf8Char.clear Utf8Char.init style)

/-- The ring-global row index of display row `drow` (as used by the
`u8c_disp_row` accessor family): `(offset + hist_rows + drow) % ring_rows`. -/
def RingBuffer.disp_grow (r : RingBuffer) (drow : Int) : Int :=
  (r.offset + r.hist_rows + drow).tmod r.ring_rows

/-- The cells of ring-global row `grow`. -/
def RingBuffer.ring_row_get (r : RingBuffer) (grow : Int) : List Utf8Char :=
  r.ring_chars.getD grow.toNat []

/-- The cells of display row `drow`. -/
def RingBuffer.disp_row_get (r : RingBuffer) (drow : Int) : List Utf8Char :=
  r.ring_row_get (r.disp_grow drow)

/-- Write one cell at display row `drow`, column `dcol`. -/
def RingBuffer.plot_char_disp (r : RingBuffer) (drow dcol : Int) (ch : Utf8Char) :
    RingBuffer :=
  let newRow := (r.disp_row_get drow).set dcol.toNat ch
  { r with ring_chars := r.ring_chars.set (r.disp_grow drow).toNat newRow }

/-- Modelled from the spec: `RingBuffer::clear_disp_rows(sdrow,edrow,style)` is
only declared in the header; it blank-fills display rows `sdrow..edrow` with
cells cleared to `style` (spec 4.1). -/
def RingBuffer.clear_disp_rows (r : RingBuffer) (sdrow edrow : Int) (style : CharStyle) :
    RingBuffer :=
  let step := fun (cells : List (List Utf8Char)) (i : Nat) =>
    cells.set (r.disp_grow (sdrow + i)).toNat (blankRow r.ring_cols style)
  { r with ring_chars := (List.range (edrow + 1 - sdrow).toNat).foldl step r.ring_chars }

/-- Modelled from the spec: `RingBuffer::clear_disp_cols` analogue used by the
erase handlers; blank-fills columns `c1..c2` of display row `drow`. -/
def RingBuffer.clear_disp_cols (r : RingBuffer) (drow c1 c2 : Int) (style : CharStyle) :
    RingBuffer :=
  let step := fun (row : List Utf8Char) (i : Nat) =>
    row.set (c1 + i).toNat (Utf8Char.clear Utf8Char.init style)
  let newRow := (List.range (c2 + 1 - c1).toNat).foldl step (r.disp_row_get drow)
  { r with ring_chars := r.ring_chars.set (r.disp_grow drow).toNat newRow }

/-- Modelled from the spec: `RingBuffer::scroll(rows, style)` is only declared
in the header.  Spec 4.1: for rows>0 (scroll up, content moves into history)
advance `offset` by rows (mod ringRows), increase `historyUsed` by rows capped
at `historyRows`, and blank-fill the newly exposed rows at the bottom of the
display; rows<0 mirrors that, scrolling back down never past the `historyUsed`
rows of available history (clamped, excess a no-op). -/
def RingBuffer.scroll (r : RingBuffer) (rows : Int) (style : CharStyle) : RingBuffer :=
  if 0 < rows then
    let r1 := { r with offset := (r.offset + rows) % r.ring_rows,
                       hist_use := min r.hist_rows (r.hist_use + rows) }
    r1.clear_disp_rows (r1.disp_rows - rows) (r1.disp_rows - 1) style
  else if rows < 0 then
    let m := min (-rows) r.hist_use
    { r with offset := (r.offset - m) % r.ring_rows, hist_use := r.hist_use - m }
  else r

/-- Modelled from the spec: `RingBuffer::create(drows,dcols,hrows)` is only
declared in the header.  Spec 4.1: allocate `ringRows = historyRows +
displayRows` rows of `dcols` columns, `offset = 0`, `historyUsed = 0`. -/
def RingBuffer.create (drows dcols hrows : Int) : RingBuffer :=
  let rows := List.replicate (hrows + drows).toNat (List.replicate dcols.toNat Utf8Char.init)
  { ring_chars := rows,
    ring_rows := hrows + drows,
    ring_cols := dcols,
    nchars := (hrows + drows) * dcols,
    hist_rows := hrows,
    hist_use := 0,
    disp_rows := drows,
    offset := 0 }

/-- `Fl_Terminal::Selection`: mouse-selection state.  The back pointer
`terminal_` used only for drawing is omitted. -/
structure Selection where
  srow : Int
  scol : Int
  erow : Int
  ecol : Int
  push_row : Int
  push_col : Int
  push_char_right : Bool
  selectionbgcolor : Nat
  selectionfgcolor : Nat
  state : Nat
  is_selection : Bool
deriving DecidableEq

/-- Modelled from the spec: `Selection::start(row,col,sideFlag)` is only
declared in the header.  Spec 4.4: sets both start and end to the same point
and `state = started` (1). -/
def Selection.start (s : Selection) (row col : Int) (char_right : Bool) : Selection :=
  { s with srow := row, scol := col, erow := row, ecol := col,
           push_char_right := char_right, state := 1 }

/-- Modelled from the spec: `Selection::extend(row,col,sideFlag)` is only
declared in the header.  Spec 4.4: updates the end point and sets
`state = extended` (2); an extended selection is a selection. -/
def Selection.extend (s : Selection) (row col : Int) (char_right : Bool) : Selection :=
  { s with erow := row, ecol := col, push_char_right := char_right,
           state := 2, is_selection := true }

/-- Modelled from the spec: `Selection::get_selection` is only declared in the
header; it is "the only place that normalizes into (earlier,later) order for
consumers", returning whether a selection exists and the coordinates ordered
lexicographically. -/
def Selection.get_selection (s : Selection) : Bool × Int × Int × Int × Int :=
  if s.erow < s.srow ∨ (s.erow = s.srow ∧ s.ecol < s.scol) then
    (s.is_selection, s.erow, s.ecol, s.srow, s.scol)
  else
    (s.is_selection, s.srow, s.scol, s.erow, s.ecol)

/-- `EscapeSeq::maxbuff = 80`: the raw character buffer bound. -/
def EscapeSeq.maxbuff : Nat := 80

/-- `EscapeSeq::maxvals = 20`: the integer parameter bound. -/
def EscapeSeq.maxvals : Nat := 20

/-- `EscapeSeq::success = 0`. -/
def EscapeSeq.success : Int := 0

/-- `EscapeSeq::fail = -1`. -/
def EscapeSeq.fail : Int := -1

/-- `EscapeSeq::completed = 1`. -/
def EscapeSeq.completed : Int := 1

/-- `Fl_Terminal::EscapeSeq`: escape-sequence parser state.  `esc_mode` is 0
when idle, `0x1b` after an ESC byte, `0x5b` while collecting a CSI sequence,
and the final command byte once a sequence completes; `buff` is the raw byte
buffer (bounded by `maxbuff`), `vals` the finalized integer parameters
(bounded by `maxvals`) and `cur` the integer currently being collected. -/
structure EscapeSeq where
  esc_mode : Nat
  csi : Bool
  buff : List Nat
  vals : List Nat
  cur : Option Nat
  save_row : Int
  save_col : Int
deriving DecidableEq

/-- Modelled from the spec: `EscapeSeq::reset()` returns the parser to idle,
discarding the collected bytes and parameters ("reset to idle after each
completed or failed sequence"); the saved cursor position survives. -/
def EscapeSeq.reset (e : EscapeSeq) : EscapeSeq :=
  { e with esc_mode := 0, csi := false, buff := [], vals := [], cur := none }

/-- A freshly constructed parser: idle. -/
def EscapeSeq.init : EscapeSeq :=
  { esc_mode := 0, csi := false, buff := [], vals := [], cur := none,
    save_row := -1, save_col := -1 }

/-- `EscapeSeq::parse_in_progress()`: a sequence is being collected. -/
def EscapeSeq.parse_in_progress (e : EscapeSeq) : Bool :=
  e.esc_mode ≠ 0

/-- `EscapeSeq::total_vals()`. -/
def EscapeSeq.total_vals (e : EscapeSeq) : Nat := e.vals.length

/-- `EscapeSeq::val(i)`. -/
def EscapeSeq.val (e : EscapeSeq) (i : Nat) : Nat := e.vals.getD i 0

/-- Modelled from the spec: `EscapeSeq::append_buff(c)` adds one raw byte to
the bounded buffer; "buffer overflow (raw byte buffer exceeded) forces a fail
state and resets to idle". -/
def EscapeSeq.append_buff (e : EscapeSeq) (c : Nat) : EscapeSeq × Int :=
  if EscapeSeq.maxbuff ≤ e.buff.length then (e.reset, EscapeSeq.fail)
  else ({ e with buff := e.buff ++ [c] }, EscapeSeq.success)

/-- Modelled from the spec: `EscapeSeq::append_val()` finalizes the integer
parameter being collected (an absent parameter counts as 0); the parameter
list is "bounded to a maximum parameter count — exceeding it is a parse
failure, sequence discarded". -/
def EscapeSeq.append_val (e : EscapeSeq) : EscapeSeq × Int :=
  if EscapeSeq.maxvals ≤ e.vals.length then (e.reset, EscapeSeq.fail)
  else ({ e with vals := e.vals ++ [e.cur.getD 0], cur := none }, EscapeSeq.success)

/-- Modelled from the spec: `EscapeSeq::parse(c)` is only declared in the
header.  Spec 4.2: byte-at-a-time state machine `idle → (ESC) → escSeen →
('[' → csiCollecting | single final byte → complete)`; in `csiCollecting`
digits accumulate into the current parameter, `;` finalizes it, `?` marks a
private-mode prefix, any 0x40–0x7E byte that is not a digit or `;` completes
the sequence, and anything else — or overflowing either bound — fails and
resets to idle. -/
def EscapeSeq.parse (e : EscapeSeq) (c : Nat) : EscapeSeq × Int :=
  if c = 0x1b then
    ({ e.reset with esc_mode := 0x1b, buff := [c] }, EscapeSeq.success)
  else if e.esc_mode = 0 then
    (e.reset, EscapeSeq.fail)
  else if e.esc_mode = 0x1b then
    if c = 0x5b then
      let er := EscapeSeq.append_buff { e with esc_mode := 0x5b, csi := true } c
      er
    else if 0x40 ≤ c ∧ c ≤ 0x7e then
      let er := e.append_buff c
      if er.2 = EscapeSeq.fail then er
      else ({ er.1 with esc_mode := c }, EscapeSeq.completed)
    else
      (e.reset, EscapeSeq.fail)
  else
    if 0x30 ≤ c ∧ c ≤ 0x39 then
      let er := e.append_buff c
      if er.2 = EscapeSeq.fail then er
      else ({ er.1 with cur := some ((er.1.cur.getD 0) * 10 + (c - 0x30)) },
            EscapeSeq.success)
    else if c = 0x3b then
      let er := e.append_buff c
      if er.2 = EscapeSeq.fail then er
      else er.1.append_val
    else if c = 0x3f then
      e.append_buff c
    else if 0x40 ≤ c ∧ c ≤ 0x7e then
      let er := e.append_buff c
      if er.2 = EscapeSeq.fail then er
      else
        let ev := if er.1.cur.isSome then er.1.append_val else (er.1, EscapeSeq.success)
        if ev.2 = EscapeSeq.fail then ev
        else ({ ev.1 with esc_mode := c }, EscapeSeq.completed)
    else
      (e.reset, EscapeSeq.fail)

/-- `EscapeSeq::save_cursor(row,col)`. -/
def EscapeSeq.save_cursor (e : EscapeSeq) (row col : Int) : EscapeSeq :=
  { e with save_row := row, save_col := col }

/-- The bounds the escape parser promises: at most `maxbuff` raw bytes and at
most `maxvals` integer parameters are ever held. -/
def EscapeSeq.bounded (e : EscapeSeq) : Prop :=
  e.buff.length ≤ EscapeSeq.maxbuff ∧ e.vals.length ≤ EscapeSeq.maxvals

instance (e : EscapeSeq) : Decidable e.bounded := by
  unfold EscapeSeq.bounded; infer_instance

/-- Modelled from the spec: the xterm 8-color palette behind SGR 30-37/40-47
(the lookup tables of `CharStyle::fltk_fg_color`/`fltk_bg_color` are not in the
header); colors are packed `(r<<24)|(g<<16)|(b<<8)` as in the header's RGB
setters. -/
def xtermColor : Nat → Nat
  | 0 => 0x00000000
  | 1 => 0xc0000000
  | 2 => 0x00c00000
  | 3 => 0xc0c00000
  | 4 => 0x0000c000
  | 5 => 0xc000c000
  | 6 => 0x00c0c000
  | _ => 0xc0c0c000

/-- One SGR parameter applied to the style (`Fl_Terminal::handle_SGR`,
modelled from the spec: 0=reset, 1=bold, 2=dim, 3=italic, 4=underline,
7=inverse, 9=strikeout, 2x=off toggles, 30-37/40-47 palette colors,
39/49 default colors; unknown codes are ignored, not errors). -/
def sgrOne (s : CharStyle) (v : Nat) : CharStyle :=
  if v = 0 then s.sgr_reset
  else if v = 1 then s.sgr_bold true
  else if v = 2 then s.sgr_dim true
  else if v = 3 then s.sgr_italic true
  else if v = 4 then s.sgr_underline true
  else if v = 7 then s.sgr_inverse true
  else if v = 9 then s.sgr_strike true
  else if v = 22 then (s.sgr_bold false).sgr_dim false
  else if v = 23 then s.sgr_italic false
  else if v = 24 then s.sgr_underline false
  else if v = 27 then s.sgr_inverse false
  else if v = 29 then s.sgr_strike false
  else if 30 ≤ v ∧ v ≤ 37 then s.fgcolor_xterm (xtermColor (v - 30))
  else if v = 39 then s.fgcolor_set s.defaultfgcolor
  else if 40 ≤ v ∧ v ≤ 47 then s.bgcolor_xterm (xtermColor (v - 40))
  else if v = 49 then s.bgcolor_set s.defaultbgcolor
  else s

/-- `Fl_Terminal` engine state: the ring buffer, cursor, current style, escape
parser and partial-UTF-8 assembler (the cross-call state the spec names for
`append`).  Widget-drawing state (margins, scrollbars, redraw policy) is not
part of the text core. -/
structure Terminal where
  ring : RingBuffer
  cursor : Cursor
  current_style : CharStyle
  escseq : EscapeSeq
  pub : PartialUtf8Buf
deriving DecidableEq

/-- Modelled from the spec: `handle_lf` — moving down at the bottom display row
scrolls the ring (pushing a row into history), otherwise the cursor moves
down. -/
def Terminal.handle_lf (t : Terminal) : Terminal :=
  if t.cursor.row < t.ring.disp_rows - 1 then { t with cursor := t.cursor.down }
  else { t with ring := t.ring.scroll 1 t.current_style }

/-- Modelled from the spec: `handle_cr` — carriage return moves to column 0. -/
def Terminal.handle_cr (t : Terminal) : Terminal :=
  { t with cursor := t.cursor.col_set 0 }

/-- Modelled from the spec: `handle_ctrl(c)` — dispatch of the control bytes
(LF scrolls-on-overflow, CR, BS, TAB to the next 8-column stop; other control
bytes are ignored). -/
def Terminal.handle_ctrl (t : Terminal) (c : Nat) : Terminal :=
  if c = 0x0a then t.handle_lf
  else if c = 0x0d then t.handle_cr
  else if c = 0x08 then { t with cursor := t.cursor.left }
  else if c = 0x09 then
    { t with cursor := t.cursor.col_set (min ((t.cursor.col / 8 + 1) * 8) (t.ring.disp_cols - 1)) }
  else t

/-- Modelled from the spec: `print_char` writes one decoded character at the
cursor using the current style, advances the cursor column, and wraps (column
0, scroll/advance row) when the column exceeds `displayColumns`. -/
def Terminal.print_char (t : Terminal) (bytes : List Nat) : Terminal :=
  let t1 :=
    if t.ring.disp_cols ≤ t.cursor.col then
      Terminal.handle_lf { t with cursor := t.cursor.col_set 0 }
    else t
  let ch := Utf8Char.text_utf8 Utf8Char.init bytes bytes.length t1.current_style
  { t1 with ring := t1.ring.plot_char_disp t1.cursor.row t1.cursor.col ch,
            cursor := t1.cursor.right }

/-- Modelled from the spec: engine-level `cursor_up` (clamps at row 0,
no scroll). -/
def Terminal.cursor_up (t : Terminal) (count : Int) : Terminal :=
  { t with cursor := t.cursor.row_set (t.cursor.row - count) }

/-- Modelled from the spec: engine-level `cursor_down` (no wrap, clamped to the
bottom display row). -/
def Terminal.cursor_down (t : Terminal) (count : Int) : Terminal :=
  { t with cursor := t.cursor.row_set (min (t.cursor.row + count) (t.ring.disp_rows - 1)) }

/-- Modelled from the spec: engine-level `cursor_left` (clamps at column 0). -/
def Terminal.cursor_left (t : Terminal) (count : Int) : Terminal :=
  { t with cursor := t.cursor.col_set (t.cursor.col - count) }

/-- Modelled from the spec: engine-level `cursor_right` (no wrap, clamped to
the last display column). -/
def Terminal.cursor_right (t : Terminal) (count : Int) : Terminal :=
  { t with cursor := t.cursor.col_set (min (t.cursor.col + count) (t.ring.disp_cols - 1)) }

/-- Modelled from the spec: `ESC [ row ; col H` — cursor addressing, 1-based
parameters, clamped into the display. -/
def Terminal.cursor_rowcol (t : Terminal) (row col : Int) : Terminal :=
  let c1 := t.cursor.row_set (min (row - 1) (t.ring.disp_rows - 1))
  { t with cursor := c1.col_set (min (col - 1) (t.ring.disp_cols - 1)) }

/-- Modelled from the spec: the erase-in-display handler (`ESC [ n J`):
0 clears cursor to end of display, 1 start of display to cursor, 2 the whole
display, 3 the scrollback history. -/
def Terminal.handle_J (t : Terminal) (n : Nat) : Terminal :=
  if n = 0 then
    let r1 := t.ring.clear_disp_cols t.cursor.row t.cursor.col (t.ring.disp_cols - 1)
      t.current_style
    let r2 := r1.clear_disp_rows (t.cursor.row + 1) (t.ring.disp_rows - 1) t.current_style
    { t with ring := r2 }
  else if n = 1 then
    let r1 := t.ring.clear_disp_rows 0 (t.cursor.row - 1) t.current_style
    { t with ring := r1.clear_disp_cols t.cursor.row 0 t.cursor.col t.current_style }
  else if n = 2 then
    { t with ring := t.ring.clear_disp_rows 0 (t.ring.disp_rows - 1) t.current_style }
  else if n = 3 then
    { t with ring := { t.ring with hist_use := 0 } }
  else t

/-- Modelled from the spec: the erase-in-line handler (`ESC [ n K`): 0 clears
cursor to end of line, 1 start of line to cursor, 2 the whole line. -/
def Terminal.handle_K (t : Terminal) (n : Nat) : Terminal :=
  if n = 0 then
    let r1 := t.ring.clear_disp_cols t.cursor.row t.cursor.col (t.ring.disp_cols - 1)
      t.current_style
    { t with ring := r1 }
  else if n = 1 then
    { t with ring := t.ring.clear_disp_cols t.cursor.row 0 t.cursor.col t.current_style }
  else if n = 2 then
    let r1 := t.ring.clear_disp_cols t.cursor.row 0 (t.ring.disp_cols - 1) t.current_style
    { t with ring := r1 }
  else t

/-- Modelled from the spec: `reset_terminal` (`ESC c`) — clear the display and
history, home the cursor, reset the style. -/
def Terminal.reset_terminal (t : Terminal) : Terminal :=
  let r1 := (t.ring.clear_disp_rows 0 (t.ring.disp_rows - 1) t.current_style)
  { t with ring := { r1 with hist_use := 0, offset := 0 },
           cursor := t.cursor.home,
           current_style := t.current_style.sgr_reset }

/-- Modelled from the spec: dispatch of a completed escape sequence
(`handle_escseq` command dispatch; `e` is the parser state holding the final
command byte in `esc_mode` and the collected parameters).  Unrecognized final
bytes are no-ops consuming exactly the sequence's bytes. -/
def Terminal.dispatch (t : Terminal) (e : EscapeSeq) : Terminal :=
  let cmd := e.esc_mode
  if e.csi then
    let n1 := max (e.val 0) 1
    if cmd = 0x41 then t.cursor_up n1
    else if cmd = 0x42 then t.cursor_down n1
    else if cmd = 0x43 then t.cursor_right n1
    else if cmd = 0x44 then t.cursor_left n1
    else if cmd = 0x48 then t.cursor_rowcol (max (e.val 0) 1) (max (e.val 1) 1)
    else if cmd = 0x4a then t.handle_J (e.val 0)
    else if cmd = 0x4b then t.handle_K (e.val 0)
    else if cmd = 0x6d then
      { t with current_style :=
          (if e.total_vals = 0 then [0] else e.vals).foldl sgrOne t.current_style }
    else if cmd = 0x53 then { t with ring := t.ring.scroll n1 t.current_style }
    else if cmd = 0x54 then { t with ring := t.ring.scroll (-n1) t.current_style }
    else if cmd = 0x73 then
      { t with escseq := t.escseq.save_cursor t.cursor.row t.cursor.col }
    else if cmd = 0x75 then
      { t with cursor := (t.cursor.row_set t.escseq.save_row).col_set t.escseq.save_col }
    else t
  else
    if cmd = 0x63 then t.reset_terminal
    else t

/-- Modelled from the spec: one byte fed to the escape parser; a completed
sequence is dispatched and the parser reset, a failed sequence is consumed
silently (the parser has already reset itself). -/
def Terminal.handle_escseq_byte (t : Terminal) (c : Nat) : Terminal :=
  let er := t.escseq.parse c
  if er.2 = EscapeSeq.completed then
    let t1 := Terminal.dispatch { t with escseq := er.1 } er.1
    { t1 with escseq := t1.escseq.reset }
  else
    { t with escseq := er.1 }

/-- Modelled from the spec: dispatch of one byte that is not part of a
partially assembled UTF-8 character: escape-sequence bytes go to the parser,
control bytes to `handle_ctrl`, ASCII is printed, a UTF-8 lead byte starts the
partial-character assembler, and a stray continuation byte is dropped
(`show_unknown` off). -/
def Terminal.step_nopub (t : Terminal) (c : Nat) : Terminal :=
  if t.escseq.parse_in_progress ∨ c = 0x1b then t.handle_escseq_byte c
  else if c < 0x20 then t.handle_ctrl c
  else if c < 0x80 then t.print_char [c]
  else if fl_utf8len c = -1 then t
  else { t with pub := (PartialUtf8Buf.init.append [c] 1).1 }

/-- Modelled from the spec: one byte fed through the partial-UTF-8 assembler
first ("the engine feeds bytes through PartialUtf8Assembler and
EscapeSequenceParser"); a completed character is printed, a malformed or
overlong sequence is dropped and the assembler reset. -/
def Terminal.step (t : Terminal) (c : Nat) : Terminal :=
  if t.pub.buflen ≠ 0 then
    if PartialUtf8Buf.is_continuation c then
      let pr := t.pub.append [c] 1
      if pr.2 then
        if pr.1.is_complete then Terminal.print_char { t with pub := pr.1.clear } pr.1.buf
        else { t with pub := pr.1 }
      else { t with pub := pr.1 }
    else
      Terminal.step_nopub { t with pub := t.pub.clear } c
  else Terminal.step_nopub t c

/-- Modelled from the spec: `Fl_Terminal::append(s, len)` feeds the raw bytes
one at a time through the assembler/parser/printable dispatch; all cross-call
state (assembler, parser, cursor, style, ring) lives in the terminal, which is
what makes chunked input safe (spec 4.3). -/
def Terminal.append (t : Terminal) (s : List Nat) : Terminal :=
  s.foldl Terminal.step t

/-- Feeding a list of chunks through successive `append` calls. -/
def Terminal.appendChunks (t : Terminal) (chunks : List (List Nat)) : Terminal :=
  chunks.foldl Terminal.append t

/-- A `get_selection` result whose start does not come after its end
(lexicographic (row, col) order). -/
def selectionOrdered (q : Bool × Int × Int × Int × Int) : Prop :=
  q.2.1 < q.2.2.2.1 ∨ (q.2.1 = q.2.2.2.1 ∧ q.2.2.1 ≤ q.2.2.2.2)

/-!  Concrete states used by the witnesses below. -/

/-- A valid ring state with history disabled (`hist_rows = 0`). -/
def ringNoHist : RingBuffer :=
  { ring_chars := List.replicate 2 (List.replicate 1 Utf8Char.init),
    ring_rows := 2, ring_cols := 1, nchars := 2, hist_rows := 0, hist_use := 0,
    disp_rows := 2, offset := 0 }

/-- A valid ring state with one history row and a nonzero offset. -/
def ringOneHist : RingBuffer :=
  { ring_chars := List.replicate 3 (List.replicate 2 Utf8Char.init),
    ring_rows := 3, ring_cols := 2, nchars := 6, hist_rows := 1, hist_use := 1,
    disp_rows := 2, offset := 2 }

/-- A valid ring state used by the scroll witness. -/
def ringScrollW : RingBuffer :=
  { ring_chars := List.replicate 5 (List.replicate 2 Utf8Char.init),
    ring_rows := 5, ring_cols := 2, nchars := 10, hist_rows := 3, hist_use := 2,
    disp_rows := 2, offset := 1 }

/-- A default character style. -/
def styleW : CharStyle :=
  { attrib := 0, charflags := 0, fgcolor := 0, bgcolor := 0,
    defaultfgcolor := 0, defaultbgcolor := 0 }

/-- A CSI-collecting parser state whose raw buffer is full (80 bytes). -/
def escFull : EscapeSeq :=
  { esc_mode := 0x5b, csi := true, buff := List.replicate 80 0x30, vals := [],
    cur := none, save_row := -1, save_col := -1 }

/-- Feed a byte list through the escape parser, keeping the state. -/
def EscapeSeq.run (e : EscapeSeq) (bytes : List Nat) : EscapeSeq :=
  bytes.foldl (fun a b => (a.parse b).1) e

/-!  ## Theorems -/

/-- C6: after `CharStyle::sgr_reset` (the `ESC[0m` handler) the attribute bits
equal `NORMAL` and the current foreground/background colors equal
`defaultfgcolor`/`defaultbgcolor`; consequently any cell stamped with the
reset style carries exactly the default colors. -/
theorem sgr_reset_restores_defaults (s : CharStyle) :
    (s.sgr_reset).attrib = NORMAL ∧
    (s.sgr_reset).fgcolor = s.defaultfgcolor ∧
    (s.sgr_reset).bgcolor = s.defaultbgcolor ∧
    (∀ (c : Utf8Char) (bytes : List Nat) (n : Nat),
      (c.text_utf8 bytes n s.sgr_reset).fgcolor = s.defaultfgcolor ∧
      (c.text_utf8 bytes n s.sgr_reset).bgcolor = s.defaultbgcolor) := by
  unfold CharStyle.sgr_reset CharStyle.attrib_set CharStyle.fgcolor_set
    CharStyle.fgcolor_xterm CharStyle.bgcolor_set CharStyle.bgcolor_xterm
    CharStyle.set_charflag CharStyle.clr_charflag
  dsimp only
  split <;> split <;>
    simp [NORMAL, Utf8Char.text_utf8, Utf8Char.text_utf8_]

/-- C9: after `Utf8Char::clear(style)` the cell holds exactly the single space
character (byte 0x20, length 1), its attribute bits and char flags are zero,
and its byte length is a valid UTF-8 encoding length of its bytes. -/
theorem utf8char_clear_single_space (c : Utf8Char) (style : CharStyle) :
    (c.clear style).text = [0x20] ∧
    (c.clear style).len = 1 ∧
    (c.clear style).attrib = 0 ∧
    (c.clear style).charflags = 0 ∧
    (c.clear style).validUtf8 := by
  have ht : (c.clear style).text = [0x20] := rfl
  have hl : (c.clear style).len = 1 := rfl
  refine ⟨ht, hl, rfl, rfl, ?_⟩
  unfold Utf8Char.validUtf8
  rw [ht, hl]
  exact ⟨rfl, by norm_num, by norm_num [max_utf8], by decide, by simp⟩

/-- C10: `PartialUtf8Buf::append(p, len)` with `len ≤ 0` returns true and
leaves the assembler completely unchanged (buffer, buffered length and
expected character length keep their prior values). -/
theorem pub_append_nonpositive_len_noop (b : PartialUtf8Buf) (p : List Nat) (len : Int)
    (h : len ≤ 0) :
    b.append p len = (b, true) := by
  unfold PartialUtf8Buf.append
  rw [if_pos h]

/-- Witness for C10: a nonempty assembler state and `len = 0`. -/
theorem pub_append_nonpositive_len_noop_witness :
    (0 : Int) ≤ 0 ∧
      PartialUtf8Buf.append { buf := [0xe2, 0x82], clen := 3 } [0xac] 0 =
        ({ buf := [0xe2, 0x82], clen := 3 }, true) :=
  ⟨by decide,
    pub_append_nonpositive_len_noop { buf := [0xe2, 0x82], clen := 3 } [0xac] 0 (by decide)⟩

/-- C5 counterexample: ten bytes "fit within the fixed 10-byte buffer"
(buffered 0 + len 10 ≤ 10), yet `append` clears the assembler and returns
false: the overflow check `buflen_ + len >= sizeof(buf_)` rejects a total that
exactly fills the buffer. -/
theorem pub_append_exact_fill_rejected :
    PartialUtf8Buf.buflen { buf := [], clen := 0 } + 10 ≤ 10 ∧
    PartialUtf8Buf.append { buf := [], clen := 0 } (List.replicate 10 0x41) 10 =
      ({ buf := [], clen := 0 }, false) := by
  decide

/-- C5 (amended): for `len > 0` (with `len` bytes available in `p`), `append`
succeeds exactly when buffered length + len stays strictly below the 10-byte
capacity: then all `len` bytes are appended and true returned, the expected
character length being recorded from the lead byte on a first append;
otherwise (total ≥ 10, including an exact fill) the assembler is cleared back
to empty (`buflen = 0`, `clen = 0`) and false returned — the only failure
path. -/
theorem pub_append_capacity (b : PartialUtf8Buf) (p : List Nat) (len : Int)
    (hpos : 0 < len) (hlen : len ≤ (p.length : Int)) :
    (b.buflen + len < 10 →
      (b.append p len).2 = true ∧
      (b.append p len).1.buf = b.buf ++ p.take len.toNat ∧
      (b.append p len).1.buflen = b.buflen + len ∧
      (b.append p len).1.clen =
        (if b.buflen = 0 then fl_utf8len (p.headD 0) else b.clen)) ∧
    (10 ≤ b.buflen + len →
      (b.append p len).2 = false ∧
      (b.append p len).1.buflen = 0 ∧
      (b.append p len).1.clen = 0) := by
  have h0 : ¬ len ≤ 0 := not_le.mpr hpos
  have htoNat : ((len.toNat : Int)) = len := Int.toNat_of_nonneg (le_of_lt hpos)
  have htake : ((p.take len.toNat).length : Int) = len := by
    rw [List.length_take]
    have hle : len.toNat ≤ p.length := by omega
    simp [Nat.min_eq_left hle, htoNat]
  constructor
  · intro hfit
    have h1 : ¬ (10 ≤ b.buflen + len) := by omega
    unfold PartialUtf8Buf.append
    rw [if_neg h0, if_neg h1]
    dsimp only
    by_cases hb : b.buflen = 0
    · simp only [if_pos hb]
      refine ⟨trivial, trivial, ?_, trivial⟩
      unfold PartialUtf8Buf.buflen at hb htake ⊢
      dsimp only
      rw [List.length_append]
      push_cast at hb htake ⊢
      omega
    · simp only [if_neg hb]
      refine ⟨trivial, trivial, ?_, trivial⟩
      unfold PartialUtf8Buf.buflen at hb htake ⊢
      dsimp only
      rw [List.length_append]
      push_cast at hb htake ⊢
      omega
  · intro hover
    unfold PartialUtf8Buf.append
    rw [if_neg h0, if_pos hover]
    exact ⟨rfl, rfl, rfl⟩

/-- Witness for C5: appending two bytes of a three-byte character to an empty
assembler succeeds and records the expected length 3. -/
theorem pub_append_capacity_witness :
    (0 : Int) < 2 ∧ (2 : Int) ≤ ([0xe2, 0x82] : List Nat).length ∧
      (PartialUtf8Buf.append { buf := [], clen := 0 } [0xe2, 0x82] 2).1.buf = [0xe2, 0x82] :=
  ⟨by decide, by decide,
    (((pub_append_capacity { buf := [], clen := 0 } [0xe2, 0x82] 2 (by decide)
      (by decide)).1 (by decide)).2).1⟩

/-- C4: every cursor operation (`row(val)`, `col(val)`, `left`, `right`, `up`,
`down`, `home`, `scroll(n)`) leaves `row ≥ 0` and `col ≥ 0`; moving up any
number of times from row 0 leaves the row at 0, and moving left any number of
times from column 0 leaves the column at 0. -/
theorem cursor_nonneg_clamp (c : Cursor) (op : CursorOp) (hr : 0 ≤ c.row) (hc : 0 ≤ c.col) :
    (0 ≤ (c.apply op).row ∧ 0 ≤ (c.apply op).col) ∧
    (∀ n : Nat, c.row = 0 → (Cursor.up^[n] c).row = 0) ∧
    (∀ n : Nat, c.col = 0 → (Cursor.left^[n] c).col = 0) := by
  refine ⟨?_, ?_, ?_⟩
  · cases op <;>
      simp only [Cursor.apply, Cursor.row_set, Cursor.col_set, Cursor.left, Cursor.right,
        Cursor.up, Cursor.down, Cursor.home, Cursor.scroll] <;>
      constructor <;>
      first
        | assumption
        | (split <;> omega)
        | omega
  · intro n h0
    induction n with
    | zero => simpa using h0
    | succ k ih =>
      rw [Function.iterate_succ_apply']
      simp [Cursor.up, ih]
  · intro n h0
    induction n with
    | zero => simpa using h0
    | succ k ih =>
      rw [Function.iterate_succ_apply']
      simp [Cursor.left, ih]

/-- Witness for C4: the home cursor scrolled down five rows stays
non-negative. -/
theorem cursor_nonneg_clamp_witness :
    (0 : Int) ≤ 0 ∧ 0 ≤ (Cursor.init.apply (CursorOp.scroll (-5))).row :=
  ⟨le_refl 0,
    ((cursor_nonneg_clamp Cursor.init (CursorOp.scroll (-5)) (by decide) (by decide)).1).1⟩

/-- C7: a selection produced by `start(r1,c1)` then `extend(r2,c2)` is
returned by `get_selection` in normalized order, `(srow,scol)` never after
`(erow,ecol)` lexicographically, whatever the drag direction; in particular
start at (5,10) then extend to (2,3) yields (srow,scol,erow,ecol) =
(2,3,5,10). -/
theorem selection_get_normalized (sel : Selection) (r1 c1 r2 c2 : Int) (f1 f2 : Bool) :
    selectionOrdered (((sel.start r1 c1 f1).extend r2 c2 f2).get_selection) ∧
    ((sel.start 5 10 f1).extend 2 3 f2).get_selection = (true, 2, 3, 5, 10) := by
  constructor
  · unfold Selection.start Selection.extend Selection.get_selection selectionOrdered
    dsimp only
    split <;> rename_i h <;> dsimp only <;> omega
  · unfold Selection.start Selection.extend Selection.get_selection
    norm_num

/-- C3 counterexample: `ringNoHist` is a valid ring state with
`ring_rows = 2 > 0` and `hist_rows = 0`; there `hist_erow()` computes the C
truncated remainder `(0 + 0 - 1) % 2 = -1`, not the mathematical
`(offset + hist_rows - 1) mod ring_rows = 1`. -/
theorem hist_erow_differs_from_emod :
    ringNoHist.valid ∧ 0 < ringNoHist.ring_rows ∧
      ringNoHist.hist_erow ≠
        (ringNoHist.offset + ringNoHist.hist_rows - 1) % ringNoHist.ring_rows := by
  refine ⟨by decide, by decide, by decide⟩

/-- C3 (amended): every row accessor is computed as `(offset + base) %
ring_rows` with the C truncated remainder; in every valid ring state with at
least one history row this coincides with the mathematical modulus for all
four accessors — so `hist_srow`, `hist_erow`, `disp_srow` and `disp_erow`
equal `(offset + base) mod ring_rows`.  (With `hist_rows = 0` and
`offset = 0` the `hist_erow` numerator is negative and the two differ.) -/
theorem ring_accessors_mod (r : RingBuffer) (hv : r.valid) (hh : 1 ≤ r.hist_rows) :
    r.hist_srow = (r.offset + 0) % r.ring_rows ∧
    r.hist_erow = (r.offset + r.hist_rows - 1) % r.ring_rows ∧
    r.disp_srow = (r.offset + r.hist_rows) % r.ring_rows ∧
    r.disp_erow = (r.offset + r.hist_rows + r.disp_rows - 1) % r.ring_rows := by
  obtain ⟨h1, h2, h3, h4, h5, h6, h7⟩ := hv
  unfold RingBuffer.hist_srow RingBuffer.hist_erow RingBuffer.disp_srow RingBuffer.disp_erow
  refine ⟨?_, ?_, ?_, ?_⟩ <;> exact Int.tmod_eq_emod (by omega) (by omega)

/-- Witness for C3 (amended) at the valid one-history-row state `ringOneHist`. -/
theorem ring_accessors_mod_witness :
    ringOneHist.valid ∧ 1 ≤ ringOneHist.hist_rows ∧
      ringOneHist.hist_erow =
        (ringOneHist.offset + ringOneHist.hist_rows - 1) % ringOneHist.ring_rows :=
  ⟨by decide, by decide, (ring_accessors_mod ringOneHist (by decide) (by decide)).2.1⟩

/-- C2: in every valid ring state `hist_rows + disp_rows = ring_rows` and
`0 ≤ hist_use ≤ hist_rows`; the invariant is established by `create` and
preserved by `scroll`; and for every k > 0, `scroll(k, style)` yields
`hist_use = min(hist_rows, hist_use + k)` and
`offset = (offset + k) mod ring_rows`. -/
theorem ring_invariant_scroll (r : RingBuffer) (style : CharStyle) (k : Int) (hv : r.valid) :
    (r.hist_rows + r.disp_rows = r.ring_rows ∧ 0 ≤ r.hist_use ∧ r.hist_use ≤ r.hist_rows) ∧
    (∀ drows dcols hrows : Int, 0 < drows → 0 ≤ hrows →
      (RingBuffer.create drows dcols hrows).valid) ∧
    (∀ n : Int, (r.scroll n style).valid) ∧
    (0 < k →
      (r.scroll k style).hist_use = min r.hist_rows (r.hist_use + k) ∧
      (r.scroll k style).offset = (r.offset + k) % r.ring_rows) := by
  obtain ⟨h1, h2, h3, h4, h5, h6, h7⟩ := hv
  refine ⟨⟨h1, h4, h5⟩, ?_, ?_, ?_⟩
  · intro drows dcols hrows hd hh
    unfold RingBuffer.create RingBuffer.valid
    dsimp only
    omega
  · intro n
    have hrr : 0 < r.ring_rows := by omega
    have hrne : r.ring_rows ≠ 0 := by omega
    unfold RingBuffer.scroll RingBuffer.clear_disp_rows RingBuffer.valid
    dsimp only
    split_ifs with hn1 hn2
    · have e1 : 0 ≤ (r.offset + n) % r.ring_rows := Int.emod_nonneg _ hrne
      have e2 : (r.offset + n) % r.ring_rows < r.ring_rows := Int.emod_lt_of_pos _ hrr
      dsimp only
      omega
    · have e1 : 0 ≤ (r.offset - min (-n) r.hist_use) % r.ring_rows := Int.emod_nonneg _ hrne
      have e2 : (r.offset - min (-n) r.hist_use) % r.ring_rows < r.ring_rows :=
        Int.emod_lt_of_pos _ hrr
      dsimp only
      omega
    · omega
  · intro hk
    unfold RingBuffer.scroll RingBuffer.clear_disp_rows
    rw [if_pos hk]
    dsimp only
    exact ⟨rfl, rfl⟩

/-- Witness for C2 at the valid state `ringScrollW` scrolled up by 2. -/
theorem ring_invariant_scroll_witness :
    ringScrollW.valid ∧ (0 : Int) < 2 ∧
      (ringScrollW.scroll 2 styleW).hist_use =
        min ringScrollW.hist_rows (ringScrollW.hist_use + 2) :=
  ⟨by decide, by decide,
    ((ring_invariant_scroll ringScrollW styleW 2 (by decide)).2.2.2 (by decide)).1⟩

/-- Helper: a reset parser satisfies the buffer bounds. -/
theorem escseq_reset_bounded (e : EscapeSeq) : (e.reset).bounded := by
  unfold EscapeSeq.bounded EscapeSeq.reset
  exact ⟨by simp, by simp⟩

/-- Helper: `append_buff` preserves the buffer bounds. -/
theorem escseq_append_buff_bounded (e : EscapeSeq) (c : Nat) (hb : e.bounded) :
    (e.append_buff c).1.bounded := by
  obtain ⟨hb1, hb2⟩ := hb
  unfold EscapeSeq.append_buff
  split_ifs with h
  · exact escseq_reset_bounded e
  · unfold EscapeSeq.bounded
    refine ⟨?_, hb2⟩
    unfold EscapeSeq.maxbuff at h ⊢
    simp only [List.length_append, List.length_cons, List.length_nil]
    omega

/-- Helper: `append_val` preserves the buffer bounds. -/
theorem escseq_append_val_bounded (e : EscapeSeq) (hb : e.bounded) :
    (e.append_val).1.bounded := by
  obtain ⟨hb1, hb2⟩ := hb
  unfold EscapeSeq.append_val
  split_ifs with h
  · exact escseq_reset_bounded e
  · unfold EscapeSeq.bounded
    refine ⟨hb1, ?_⟩
    unfold EscapeSeq.maxvals at h ⊢
    simp only [List.length_append, List.length_cons, List.length_nil]
    omega

/-- Helper: a failing `append_buff` has reset the parser. -/
theorem escseq_append_buff_fail (e : EscapeSeq) (c : Nat)
    (h : (e.append_buff c).2 = EscapeSeq.fail) :
    (e.append_buff c).1 = e.reset := by
  unfold EscapeSeq.append_buff at h ⊢
  split_ifs at h ⊢
  · rfl
  · simp [EscapeSeq.success, EscapeSeq.fail] at h

/-- Helper: a failing `append_val` has reset the parser. -/
theorem escseq_append_val_fail (e : EscapeSeq)
    (h : (e.append_val).2 = EscapeSeq.fail) :
    (e.append_val).1 = e.reset := by
  unfold EscapeSeq.append_val at h ⊢
  split_ifs at h ⊢
  · rfl
  · simp [EscapeSeq.success, EscapeSeq.fail] at h

set_option maxHeartbeats 1000000 in
/-- Helper: a parse step preserves the parser buffer bounds. -/
theorem escseq_parse_bounded (e : EscapeSeq) (c : Nat) (hb : e.bounded) :
    (e.parse c).1.bounded := by
  have hab := escseq_append_buff_bounded e c hb
  have hav := escseq_append_val_bounded _ hab
  unfold EscapeSeq.parse
  dsimp only
  split_ifs
  · refine ⟨?_, ?_⟩ <;> norm_num [EscapeSeq.reset, EscapeSeq.maxbuff, EscapeSeq.maxvals]
  · exact escseq_reset_bounded e
  · apply escseq_append_buff_bounded
    exact hb
  · exact hab
  · exact ⟨hab.1, hab.2⟩
  · exact escseq_reset_bounded e
  · exact hab
  · exact ⟨hab.1, hab.2⟩
  · exact hab
  · exact hav
  · exact hab
  · exact hab
  · exact hav
  · exact ⟨hav.1, hav.2⟩
  · exact hab
  · exact ⟨hab.1, hab.2⟩
  · exact escseq_reset_bounded e

set_option maxHeartbeats 1000000 in
/-- Helper: a parse step that returns fail leaves the parser reset to idle. -/
theorem escseq_parse_fail_idle (e : EscapeSeq) (c : Nat)
    (h : (e.parse c).2 = EscapeSeq.fail) :
    (e.parse c).1.esc_mode = 0 ∧ (e.parse c).1.buff = [] ∧
    (e.parse c).1.vals = [] ∧ (e.parse c).1.cur = none := by
  unfold EscapeSeq.parse at h ⊢
  dsimp only at h ⊢
  split_ifs at h ⊢ <;>
    first
      | exact ⟨rfl, rfl, rfl, rfl⟩
      | (rw [escseq_append_buff_fail _ _ (by assumption)]; exact ⟨rfl, rfl, rfl, rfl⟩)
      | (rw [escseq_append_val_fail _ (by assumption)]; exact ⟨rfl, rfl, rfl, rfl⟩)
      | simp_all [EscapeSeq.success, EscapeSeq.fail, EscapeSeq.completed]

/-- C8: the escape parser holds at most `maxbuff = 80` raw bytes and at most
`maxvals = 20` integer parameters — preserved by every parse step and along
every byte sequence fed from the initial state — and any parse step that
returns fail resets the parser to idle (no parse in progress, raw buffer and
parameter list emptied), after which normal character output resumes; a
failed sequence thus has no effect beyond its consumed bytes. -/
theorem escseq_bounded_fail_resets (e : EscapeSeq) (c : Nat) (hb : e.bounded) :
    (e.parse c).1.bounded ∧
    ((e.parse c).2 = EscapeSeq.fail →
      (e.parse c).1.parse_in_progress = false ∧
      (e.parse c).1.buff = [] ∧ (e.parse c).1.vals = []) ∧
    (∀ bytes : List Nat, (EscapeSeq.init.run bytes).bounded) := by
  refine ⟨escseq_parse_bounded e c hb, ?_, ?_⟩
  · intro hf
    have h := escseq_parse_fail_idle e c hf
    refine ⟨?_, h.2.1, h.2.2.1⟩
    simp [EscapeSeq.parse_in_progress, h.1]
  · intro bytes
    have key : ∀ (bs : List Nat) (st : EscapeSeq), st.bounded → (st.run bs).bounded := by
      intro bs
      induction bs with
      | nil => intro st h; exact h
      | cons b tl ih =>
        intro st h
        exact ih _ (escseq_parse_bounded st b h)
    exact key bytes EscapeSeq.init (by decide)

/-- Witness for C8: in a CSI state whose raw buffer already holds 80 bytes,
the next digit overflows: parse fails and the parser is reset to idle. -/
theorem escseq_bounded_fail_resets_witness :
    escFull.bounded ∧ (escFull.parse 0x30).2 = EscapeSeq.fail ∧
      (escFull.parse 0x30).1.parse_in_progress = false :=
  ⟨by decide, by decide,
    ((escseq_bounded_fail_resets escFull 0x30 (by decide)).2.1 (by decide)).1⟩

/-- C1: chunk-invariance of `append`: for every terminal state and every
partition of a byte stream into consecutive chunks, feeding the chunks through
successive `append` calls produces the same final state (grid contents, cursor
position and character-style state) as a single `append` of the concatenated
stream; in particular appending "\xe2" then "\x82\xac" equals appending the
euro sign "\xe2\x82\xac" in one call. -/
theorem append_chunk_invariance :
    (∀ (t : Terminal) (chunks : List (List Nat)),
      t.appendChunks chunks = t.append chunks.flatten) ∧
    (∀ t : Terminal,
      (t.append [0xe2]).append [0x82, 0xac] = t.append [0xe2, 0x82, 0xac]) := by
  have key : ∀ (chunks : List (List Nat)) (t : Terminal),
      t.appendChunks chunks = t.append chunks.flatten := by
    intro chunks
    induction chunks with
    | nil => intro t; rfl
    | cons a as ih =>
      intro t
      show (t.append a).appendChunks as = _
      rw [ih (t.append a)]
      unfold Terminal.append
      rw [List.flatten_cons, List.foldl_append]
  refine ⟨fun t chunks => key chunks t, fun t => ?_⟩
  have h := key [[0xe2], [0x82, 0xac]] t
  have e1 : ([[0xe2], [0x82, 0xac]] : List (List Nat)).flatten = [0xe2, 0x82, 0xac] := rfl
  rw [e1] at h
  exact h

end FlTerminal
